import Mathlib

/-!
A shallow embedding of the reentrant-exit adapter of `pg_restore`, taken from
`src/bin/pg_dump/pg_backup_utils.c` and `src/bin/pg_dump/pg_restore.c`
(non-WIN32 build).  The adapter's process-wide mutable globals
(`g_outMsgBuf`, `g_jmpEnv`, `progname`, `on_exit_nicely_list` /
`on_exit_nicely_index`) become a state record threaded explicitly; the
`longjmp`/`setjmp` transfer becomes an `Option Nat` result component carrying
the value passed to `longjmp` (`none` when the call returns normally to its
caller).  C byte strings become `String` (lengths measured with
`String.utf8ByteSize`, matching `strlen` on the ASCII texts involved);
callbacks and their opaque `void *` contexts become `Nat` identifiers, and a
firing is recorded as an explicit trace element.  The gettext lookup `_()` is
the identity (no message catalog is configured in this slice), and
`malloc`/`realloc`/`asprintf` are modeled as succeeding, with the byte count
requested from the allocator reported alongside the new state.
-/

namespace PgBackupUtils

/-- An argument consumed by the printf-style formatter; the modeled source
formats only with `%s` and `%d`. -/
inductive FmtArg where
  | s (v : String)
  | d (v : Int)
deriving Repr, DecidableEq

/-- Net effect of the two-pass `vasprintf` of pg_backup_utils.c lines 35-77:
the format template with each `%s` / `%d` directive replaced by the
corresponding argument, left to right. -/
def formatChars : List Char → List FmtArg → List Char
  | [], _ => []
  | '%' :: 's' :: rest, FmtArg.s v :: args => v.data ++ formatChars rest args
  | '%' :: 'd' :: rest, FmtArg.d v :: args => (toString v).data ++ formatChars rest args
  | c :: rest, args => c :: formatChars rest args

/-- String-level wrapper around `formatChars`. -/
def formatStr (fmt : String) (args : List FmtArg) : String :=
  (formatChars fmt.data args).asString

/-- One slot of `on_exit_nicely_list` (pg_backup_utils.c lines 102-106): a
callback identifier and its opaque context argument. -/
structure CleanupEntry where
  function : Nat
  arg : Nat
deriving Repr, DecidableEq

/-- Trace record of one finalizer invocation
`(*on_exit_nicely_list[i].function)(code, on_exit_nicely_list[i].arg)`
(pg_backup_utils.c lines 230-232). -/
structure FinalizerCall where
  function : Nat
  code : Int
  arg : Nat
deriving Repr, DecidableEq

/-- The adapter's process-wide mutable globals.
`g_outMsgBuf : char **` is `Option (Option String)`: the outer layer is the
pointer handed in by the host (`none` = NULL, no capture slot), the inner
layer is the buffer the slot currently points at (`none` = `*g_outMsgBuf`
is NULL, nothing captured yet).  `g_jmpEnv` records whether a jump
environment is installed.  `on_exit_nicely_list` holds the registered
entries in registration order; its length is `on_exit_nicely_index`. -/
structure UtilsState where
  progname : String
  g_outMsgBuf : Option (Option String)
  g_jmpEnv : Bool
  on_exit_nicely_list : List CleanupEntry
deriving Repr, DecidableEq

/-- pg_backup_utils.c line 100. -/
def MAX_ON_EXIT_NICELY : Nat := 20

/-- Content of the capture buffer, reading NULL as the empty transcript. -/
def bufContent : Option String → String
  | none => ""
  | some t => t

/-- The title fragment built at pg_backup_utils.c lines 175-178:
`asprintf(&title, "%s: [%s] ", progname, _(modulename))` when a module name
is supplied, `asprintf(&title, "%s: ", progname)` otherwise. -/
def titleOf (prog : String) (modulename : Option String) : String :=
  match modulename with
  | some m => prog ++ ": [" ++ m ++ "] "
  | none => prog ++ ": "

/-- pg_backup_utils.c lines 161-208 (`vwrite_msg`).  Returns the new state
and the number of bytes requested from the allocator for the capture buffer
(`none` when the function returned at line 173 because no capture slot is
configured).  The first-use branch is `malloc(titleLen + messageLen + 1)`
(line 187), the append branch is
`realloc(*g_outMsgBuf, bufLen + titleLen + messageLen + 1)` (line 197);
both are modeled as succeeding. -/
def vwrite_msg (modulename : Option String) (fmt : String) (ap : List FmtArg)
    (s : UtilsState) : UtilsState × Option Nat :=
  match s.g_outMsgBuf with
  | none => (s, none)
  | some buf =>
    let title := titleOf s.progname modulename
    let message := formatStr fmt ap
    let titleLen := title.utf8ByteSize
    let messageLen := message.utf8ByteSize
    match buf with
    | none =>
      ({ s with g_outMsgBuf := some (some (title ++ message)) },
        some (titleLen + messageLen + 1))
    | some old =>
      let bufLen := old.utf8ByteSize
      ({ s with g_outMsgBuf := some (some (old ++ title ++ message)) },
        some (bufLen + titleLen + messageLen + 1))

/-- pg_backup_utils.c lines 148-156 (`write_msg`): the varargs wrapper around
`vwrite_msg`; only the state effect is propagated. -/
def write_msg (modulename : Option String) (fmt : String) (ap : List FmtArg)
    (s : UtilsState) : UtilsState :=
  (vwrite_msg modulename fmt ap s).1

/-- pg_backup_utils.c lines 225-245 (`exit_nicely`, non-WIN32 build): run the
registered callbacks from `on_exit_nicely_index - 1` down to `0`, reset the
index to zero, then `longjmp(*g_jmpEnv, 1)` iff `code` is nonzero and
`g_jmpEnv` is set.  The result is the new state, the trace of finalizer
invocations in firing order, and the value carried by the jump (`none` when
the function falls off the end and returns to its caller).  `CleanDumpable`
(line 241) is defined outside this slice and operates on dump-object state
that is not part of `UtilsState`. -/
def exit_nicely (code : Int) (s : UtilsState) :
    UtilsState × List FinalizerCall × Option Nat :=
  ({ s with on_exit_nicely_list := [] },
    s.on_exit_nicely_list.reverse.map (fun e => ⟨e.function, code, e.arg⟩),
    if code ≠ 0 ∧ s.g_jmpEnv = true then some 1 else none)

/-- Modelled from the spec: `exit_horribly` is declared in pg_backup_utils.h
and called at pg_backup_utils.c line 215, but its definition is outside
`src/`.  Per spec section 4.2 an unrecoverable condition "is reported through
the Message Sink before termination" and routed through the Termination
Primitive, i.e. `vwrite_msg` followed by `exit_nicely(1)`. -/
def exit_horribly (modulename : Option String) (fmt : String) (ap : List FmtArg)
    (s : UtilsState) : UtilsState × List FinalizerCall × Option Nat :=
  exit_nicely 1 (write_msg modulename fmt ap s)

/-- pg_backup_utils.c lines 211-219 (`on_exit_nicely`): when the registry is
full, invoke `exit_horribly(NULL, "out of on_exit_nicely slots\n")`;
otherwise store the pair at the current index and increment it.  The second
component is the jump value when control left through `longjmp`.  The store
that follows the full-registry call is reached only if `exit_horribly`
returns, which during a run (active jump environment) it never does; the C
store at index `MAX_ON_EXIT_NICELY` would in that case be out of bounds, so
the model leaves the registry as `exit_horribly` left it. -/
def on_exit_nicely (f : Nat) (a : Nat) (s : UtilsState) : UtilsState × Option Nat :=
  if MAX_ON_EXIT_NICELY ≤ s.on_exit_nicely_list.length then
    let r := exit_horribly none "out of on_exit_nicely slots\n" [] s
    (r.1, r.2.2)
  else
    ({ s with on_exit_nicely_list := s.on_exit_nicely_list ++ [⟨f, a⟩] }, none)

/-- Registration of a list of entries through `on_exit_nicely`, in order. -/
def registerAll (es : List CleanupEntry) (s : UtilsState) : UtilsState :=
  es.foldl (fun t e => (on_exit_nicely e.function e.arg t).1) s

/-- Sequence of `vwrite_msg` calls: module name, format template, arguments. -/
structure EmitCall where
  modulename : Option String
  fmt : String
  args : List FmtArg
deriving Repr, DecidableEq

/-- A run of `vwrite_msg` calls applied in order. -/
def emitAll (calls : List EmitCall) (s : UtilsState) : UtilsState :=
  calls.foldl (fun t c => (vwrite_msg c.modulename c.fmt c.args t).1) s

/-- The transcript text a run of `vwrite_msg` calls contributes: for each call
its title fragment followed by its formatted message, in emission order. -/
def msgConcat (prog : String) : List EmitCall → String
  | [] => ""
  | c :: rest => titleOf prog c.modulename ++ formatStr c.fmt c.args
      ++ msgConcat prog rest

/-- Outcome of the external archive-engine calls made by `pg_restore_internal`
between `OpenArchive` (pg_restore.c line 369) and `CloseArchive` (line 408).
These collaborators live outside `src/`; per the spec they are opaque services
"that may themselves call the termination primitive at arbitrary points".
Either every call returns and the run ends with `AH->n_errors` non-fatal
errors, or some nested call invokes `exit_nicely` with a (nonzero, per spec
section 4.3) fatal code. -/
inductive EngineBehavior where
  | returns (n_errors : Nat)
  | aborts (code : Int)
deriving Repr, DecidableEq

/-- Which control path a `pg_restore_internal` invocation takes.  The visible
option-parsing code (pg_restore.c lines 147-335) is mechanical glue the spec
treats as an external collaborator; what matters to the adapter is whether it
hits one of the usage-error sites (lines 149-158, 293-296, 306-313, 316-325,
330-335, 362-366), each of which emits `write_msg` diagnostics and then calls
`exit_nicely(1)`, or reaches the archive engine. -/
inductive DriverScript where
  | usageError
  | run (engine : EngineBehavior)
deriving Repr, DecidableEq

/-- Callback identifier for the archive-closing callback that
`on_exit_close_archive(AH)` (pg_restore.c line 376, defined outside `src/`)
registers with `on_exit_nicely`. -/
def archive_close_connection : Nat := 1

/-- Context identifier standing for the archive handle `AH` passed to
`on_exit_close_archive` at pg_restore.c line 376. -/
def AHhandle : Nat := 1

/-- pg_restore.c lines 70-411 (`pg_restore_internal`), modeled at the level
the spec carves out: line 136 stores the host's capture slot into
`g_outMsgBuf`; a usage-error path emits a diagnostic and calls
`exit_nicely(1)`; otherwise line 376 registers the archive-closing callback
and the engine runs.  On a completed run, line 402 emits the
errors-ignored warning when `AH->n_errors` is nonzero, line 406 computes
`exit_code = AH->n_errors ? 1 : 0` (stored but never used afterwards), and
line 410 returns 1.  The result is the final state, the `longjmp` value when
control left non-locally (code after such a call site is not reached), and
the C return value (meaningful only when no jump occurred). -/
def pg_restore_internal (script : DriverScript) (outMsgBuf : Option (Option String))
    (s : UtilsState) : UtilsState × Option Nat × Int :=
  let s := { s with g_outMsgBuf := outMsgBuf }
  match script with
  | DriverScript.usageError =>
    let s := write_msg none "Try \"%s --help\" for more information.\n"
      [FmtArg.s s.progname] s
    let r := exit_nicely 1 s
    (r.1, r.2.2, 1)
  | DriverScript.run engine =>
    match on_exit_nicely archive_close_connection AHhandle s with
    | (s, some v) => (s, some v, 1)
    | (s, none) =>
      match engine with
      | EngineBehavior.aborts code =>
        let r := exit_nicely code s
        (r.1, r.2.2, 1)
      | EngineBehavior.returns n =>
        let s := if n ≠ 0 then
            write_msg none "WARNING: errors ignored on restore: %d\n"
              [FmtArg.d n] s
          else s
        let _exit_code : Int := if n ≠ 0 then 1 else 0
        (s, none, 1)

/-- pg_restore.c lines 413-432 (`pg_restore`): `res` starts at 1 (line 415),
`g_jmpEnv` is pointed at a fresh jump environment (line 418), the driver runs
under `setjmp` (lines 420-423), `res` becomes 0 only when control arrived via
`longjmp` (line 426), `g_jmpEnv` is cleared (line 429) and `res` returned
(line 431).  The driver's own return value is discarded, exactly as at
line 422. -/
def pg_restore (script : DriverScript) (outMsgBuf : Option (Option String))
    (s : UtilsState) : Int × UtilsState :=
  let s1 := { s with g_jmpEnv := true }
  let r := pg_restore_internal script outMsgBuf s1
  let res : Int := match r.2.1 with
    | none => 1
    | some _ => 0
  (res, { r.1 with g_jmpEnv := false })

/-- A fresh process state: `progname` not yet overwritten, no capture slot,
no jump environment, empty registry (`on_exit_nicely_index` zero). -/
def initState : UtilsState :=
  { progname := "pg_restore", g_outMsgBuf := none, g_jmpEnv := false,
    on_exit_nicely_list := [] }

/-- A mid-run state: capture slot configured (nothing captured yet), jump
environment active, registry empty. -/
def cfgState : UtilsState :=
  { progname := "tool", g_outMsgBuf := some none, g_jmpEnv := true,
    on_exit_nicely_list := [] }

/-- A mid-run state whose registry holds exactly `MAX_ON_EXIT_NICELY`
entries. -/
def capState : UtilsState :=
  { progname := "tool", g_outMsgBuf := some none, g_jmpEnv := true,
    on_exit_nicely_list := List.replicate MAX_ON_EXIT_NICELY ⟨0, 0⟩ }

/-- A state whose capture buffer already holds the transcript `"A"`. -/
def bufState : UtilsState :=
  { progname := "tool", g_outMsgBuf := some (some "A"), g_jmpEnv := false,
    on_exit_nicely_list := [] }

/-- Reentrancy-aware state for the firing loop of `exit_nicely`.  Unlike
`UtilsState`, the registry array and `on_exit_nicely_index` are tracked
separately, because line 239 resets the index while the array contents stay
behind, and an `exit_nicely` raised from inside a finalizer reads the
not-yet-reset index.  `closed` records the identifiers of finalizers whose
resource has already been closed — the "close if still open" discipline spec
section 4.2 demands of finalizers, which is what makes finalizer-initiated
reentry terminate. -/
structure FiringState where
  on_exit_nicely_list : List CleanupEntry
  on_exit_nicely_index : Nat
  g_jmpEnv : Bool
  closed : List Nat
deriving Repr, DecidableEq

/-- The firing loop of `exit_nicely` (pg_backup_utils.c lines 230-232),
modeled with reentrancy.  `beh` gives each callback identifier's behavior:
`some c` is a finalizer that, on the invocation that finds its resource
still open, closes it and itself raises `exit_nicely c` (spec section 4.2:
"finalizers may themselves have triggered termination"); `none` is an inert
finalizer; a finalizer whose resource is already closed is a recorded
no-op either way.  `fireFrom beh gas code n st` runs the loop body for array
positions `n - 1` down to `0`.  A raise inlines the nested `exit_nicely`:
it fires from the current — not yet reset — `on_exit_nicely_index`, then
resets the index (line 239), then longjmps iff its code is nonzero and the
jump environment is active (lines 243-244); the jump unwinds every
enclosing invocation at once, so suspended outer iterations never resume.
`gas` is structural recursion fuel, decremented on every recursive call;
the out-of-gas fallback stops the loop, and is unreachable for any `gas`
larger than the total number of loop steps, which the concrete theorems
below fix explicitly. -/
def fireFrom (beh : Nat → Option Int) :
    Nat → Int → Nat → FiringState →
      FiringState × List FinalizerCall × Option Nat
  | 0, _, _, st => (st, [], none)
  | _ + 1, _, 0, st => (st, [], none)
  | g + 1, code, n + 1, st =>
    match st.on_exit_nicely_list[n]? with
    | none => fireFrom beh g code n st
    | some e =>
      let call : FinalizerCall := ⟨e.function, code, e.arg⟩
      if st.closed.contains e.function then
        let rest := fireFrom beh g code n st
        (rest.1, call :: rest.2.1, rest.2.2)
      else
        let st1 := { st with closed := e.function :: st.closed }
        match beh e.function with
        | none =>
          let rest := fireFrom beh g code n st1
          (rest.1, call :: rest.2.1, rest.2.2)
        | some c =>
          let inner := fireFrom beh g c st1.on_exit_nicely_index st1
          match inner.2.2 with
          | some v => (inner.1, call :: inner.2.1, some v)
          | none =>
            let st2 := { inner.1 with on_exit_nicely_index := 0 }
            if c ≠ 0 ∧ st2.g_jmpEnv = true then
              (st2, call :: inner.2.1, some 1)
            else
              let rest := fireFrom beh g code n st2
              (rest.1, call :: inner.2.1 ++ rest.2.1, rest.2.2)

/-- `exit_nicely` (pg_backup_utils.c lines 225-245) under the
reentrancy-aware model: run the firing loop from `on_exit_nicely_index - 1`
down to 0; if no nested invocation jumped away mid-loop, reset the index to
zero (line 239) and then longjmp iff the code is nonzero and the jump
environment is active.  When a nested invocation did jump, control has
already left this invocation: its own reset and jump test never run (the
nested invocation's reset did run, before its jump). -/
def exit_nicely_reentrant (beh : Nat → Option Int) (gas : Nat) (code : Int)
    (st : FiringState) : FiringState × List FinalizerCall × Option Nat :=
  let r := fireFrom beh gas code st.on_exit_nicely_index st
  match r.2.2 with
  | some v => (r.1, r.2.1, some v)
  | none =>
    let st2 := { r.1 with on_exit_nicely_index := 0 }
    if code ≠ 0 ∧ st2.g_jmpEnv = true then (st2, r.2.1, some 1)
    else (st2, r.2.1, none)

/-- Behavior for the reentrancy scenario: finalizer 1 (say, an archive
close whose write-back fails) raises a fatal `exit_nicely 1` when its
resource is still open; every other finalizer is inert. -/
def behAB : Nat → Option Int := fun f => if f = 1 then some 1 else none

/-- All-inert finalizer behavior. -/
def behZ : Nat → Option Int := fun _ => none

/-- Scenario registry: entry ⟨1, 10⟩ registered first, ⟨2, 20⟩ second, jump
environment active, both resources still open. -/
def stAB : FiringState :=
  { on_exit_nicely_list := [⟨1, 10⟩, ⟨2, 20⟩], on_exit_nicely_index := 2,
    g_jmpEnv := true, closed := [] }

/-- `vwrite_msg` touches only the capture buffer: program name, jump
environment and cleanup registry are unchanged. -/
theorem vwrite_msg_fields (m : Option String) (fmt : String) (ap : List FmtArg)
    (s : UtilsState) :
    (vwrite_msg m fmt ap s).1.progname = s.progname ∧
    (vwrite_msg m fmt ap s).1.g_jmpEnv = s.g_jmpEnv ∧
    (vwrite_msg m fmt ap s).1.on_exit_nicely_list = s.on_exit_nicely_list := by
  cases hb : s.g_outMsgBuf with
  | none => simp [vwrite_msg, hb]
  | some buf => cases buf <;> simp [vwrite_msg, hb]

/-- Registering a list of entries one by one appends them in order, as long
as the capacity is not exceeded, and touches no other component. -/
theorem registerAll_list (es : List CleanupEntry) (s : UtilsState)
    (h : s.on_exit_nicely_list.length + es.length ≤ MAX_ON_EXIT_NICELY) :
    (registerAll es s).on_exit_nicely_list = s.on_exit_nicely_list ++ es ∧
    (registerAll es s).progname = s.progname ∧
    (registerAll es s).g_outMsgBuf = s.g_outMsgBuf ∧
    (registerAll es s).g_jmpEnv = s.g_jmpEnv := by
  induction es generalizing s with
  | nil => simp [registerAll]
  | cons e rest ih =>
    have hlt : ¬ MAX_ON_EXIT_NICELY ≤ s.on_exit_nicely_list.length := by
      simp only [List.length_cons] at h; omega
    have hstep : registerAll (e :: rest) s
        = registerAll rest { s with
            on_exit_nicely_list := s.on_exit_nicely_list ++ [e] } := by
      simp [registerAll, on_exit_nicely, hlt]
    have h' : ({ s with on_exit_nicely_list := s.on_exit_nicely_list ++ [e] }
          : UtilsState).on_exit_nicely_list.length + rest.length
        ≤ MAX_ON_EXIT_NICELY := by
      simp only [List.length_append, List.length_cons, List.length_nil]
        at h ⊢
      omega
    obtain ⟨h1, h2, h3, h4⟩ := ih _ h'
    rw [hstep]
    refine ⟨?_, by rw [h2], by rw [h3], by rw [h4]⟩
    rw [h1]
    simp

/-- Claim C2: registering e1..eN in order and then invoking the Termination
Primitive once fires the finalizers exactly in reverse order eN..e1, each
once with its registered context and the exit code, and leaves the registry
count at zero. -/
theorem exit_nicely_lifo_once (es : List CleanupEntry) (code : Int)
    (s : UtilsState) (h0 : s.on_exit_nicely_list = [])
    (hlen : es.length ≤ MAX_ON_EXIT_NICELY) :
    (exit_nicely code (registerAll es s)).2.1
      = es.reverse.map (fun e => ⟨e.function, code, e.arg⟩) ∧
    (exit_nicely code (registerAll es s)).1.on_exit_nicely_list = [] := by
  have h : s.on_exit_nicely_list.length + es.length ≤ MAX_ON_EXIT_NICELY := by
    rw [h0]; simpa using hlen
  obtain ⟨h1, -, -, -⟩ := registerAll_list es s h
  rw [h0] at h1
  simp only [List.nil_append] at h1
  exact ⟨by simp [exit_nicely, h1], rfl⟩

/-- Witness for C2 at a concrete three-entry registration. -/
theorem exit_nicely_lifo_once_witness :
    (initState.on_exit_nicely_list = []
      ∧ ([⟨1, 10⟩, ⟨2, 20⟩, ⟨3, 30⟩] : List CleanupEntry).length
          ≤ MAX_ON_EXIT_NICELY) ∧
    ((exit_nicely 7 (registerAll [⟨1, 10⟩, ⟨2, 20⟩, ⟨3, 30⟩] initState)).2.1
        = ([⟨1, 10⟩, ⟨2, 20⟩, ⟨3, 30⟩] : List CleanupEntry).reverse.map
            (fun e => ⟨e.function, 7, e.arg⟩) ∧
      (exit_nicely 7 (registerAll [⟨1, 10⟩, ⟨2, 20⟩, ⟨3, 30⟩]
          initState)).1.on_exit_nicely_list = []) :=
  ⟨⟨rfl, by decide⟩,
    exit_nicely_lifo_once [⟨1, 10⟩, ⟨2, 20⟩, ⟨3, 30⟩] 7 initState rfl (by decide)⟩

/-- Claim C5: the Termination Primitive first fires every registered
finalizer (most recent first, each once with its context and the code) and
resets the registry, and then transfers control to the Resumption Point,
carrying the nonzero signal value 1, exactly when the code is nonzero and a
Resumption Point is active; in all other cases no transfer happens.  The
trace is complete before the transfer, so no finalizer fires after it. -/
theorem exit_nicely_terminate_contract (code : Int) (s : UtilsState) :
    (exit_nicely code s).2.1
      = s.on_exit_nicely_list.reverse.map (fun e => ⟨e.function, code, e.arg⟩) ∧
    (exit_nicely code s).1.on_exit_nicely_list = [] ∧
    ((exit_nicely code s).2.2 = some 1 ↔ code ≠ 0 ∧ s.g_jmpEnv = true) ∧
    (¬(code ≠ 0 ∧ s.g_jmpEnv = true) → (exit_nicely code s).2.2 = none) := by
  refine ⟨rfl, rfl, ?_, ?_⟩
  · by_cases h : code ≠ 0 ∧ s.g_jmpEnv = true <;> simp [exit_nicely, h]
  · intro h; simp [exit_nicely, h]

/-- Claim C7 counterexample: entered with the fatal code 1 while no
Resumption Point is active (and with code 0 while one is active),
`exit_nicely` does not transfer control — it returns to its caller, which
then continues, instead of ending the current unit of work. -/
theorem exit_nicely_step4_returns_to_caller :
    (exit_nicely 1 (⟨"tool", none, false, []⟩ : UtilsState)).2.2 = none ∧
    (exit_nicely 0 (⟨"tool", none, true, []⟩ : UtilsState)).2.2 = none := by
  decide

/-- Claim C7 as amended: once `exit_nicely` is entered, only finalizers run
inside it, and control leaves non-locally exactly when the code is nonzero
and a Resumption Point is active; on the step-4 paths (code zero, or no
Resumption Point) the call instead returns to its caller — with every
finalizer already fired and the registry reset — and the caller's
normal-path code continues. -/
theorem exit_nicely_control_transfer (code : Int) (s : UtilsState) :
    ((exit_nicely code s).2.2 ≠ none ↔ code ≠ 0 ∧ s.g_jmpEnv = true) ∧
    ((exit_nicely code s).2.2 = none →
      (exit_nicely code s).1.on_exit_nicely_list = [] ∧
      (exit_nicely code s).2.1.length = s.on_exit_nicely_list.length) := by
  constructor
  · by_cases h : code ≠ 0 ∧ s.g_jmpEnv = true <;> simp [exit_nicely, h]
  · intro _; exact ⟨rfl, by simp [exit_nicely]⟩

/-- Claim C8: with no capture slot configured, `vwrite_msg` is a silent
no-op — the state is unchanged and nothing is requested from the
allocator. -/
theorem vwrite_msg_no_slot_noop (m : Option String) (fmt : String)
    (ap : List FmtArg) (s : UtilsState) (h : s.g_outMsgBuf = none) :
    vwrite_msg m fmt ap s = (s, none) := by
  simp [vwrite_msg, h]

/-- Witness for C8 on the fresh process state. -/
theorem vwrite_msg_no_slot_noop_witness :
    initState.g_outMsgBuf = none ∧
    vwrite_msg none "x" [] initState = (initState, none) :=
  ⟨rfl, vwrite_msg_no_slot_noop none "x" [] initState rfl⟩

/-- The overflow diagnostic contains no format directive, so formatting
leaves it unchanged. -/
theorem overflow_text_eq :
    formatStr "out of on_exit_nicely slots\n" []
      = "out of on_exit_nicely slots\n" := by decide

/-- Claim C4: with the registry at its fixed capacity of 20, a further
registration does not append the entry; it is routed through the Termination
Primitive (via `exit_horribly`) with a transcript message naming the
overflow, while a registration below capacity appends the pair and
increments the count by one without any termination. -/
theorem on_exit_nicely_capacity (f a : Nat) (s : UtilsState) (b : Option String)
    (henv : s.g_jmpEnv = true) (hbuf : s.g_outMsgBuf = some b) :
    (s.on_exit_nicely_list.length = MAX_ON_EXIT_NICELY →
      (on_exit_nicely f a s).2 = some 1 ∧
      (on_exit_nicely f a s).1.on_exit_nicely_list = [] ∧
      (on_exit_nicely f a s).1.g_outMsgBuf
        = some (some (bufContent b ++ (s.progname ++ ": ")
            ++ "out of on_exit_nicely slots\n"))) ∧
    (s.on_exit_nicely_list.length < MAX_ON_EXIT_NICELY →
      (on_exit_nicely f a s).1.on_exit_nicely_list
          = s.on_exit_nicely_list ++ [⟨f, a⟩] ∧
      (on_exit_nicely f a s).1.on_exit_nicely_list.length
          = s.on_exit_nicely_list.length + 1 ∧
      (on_exit_nicely f a s).2 = none) := by
  constructor
  · intro hfull
    have hcond : MAX_ON_EXIT_NICELY ≤ s.on_exit_nicely_list.length :=
      le_of_eq hfull.symm
    refine ⟨?_, ?_, ?_⟩ <;>
      cases b <;>
        simp [on_exit_nicely, hcond, exit_horribly, write_msg, vwrite_msg,
          hbuf, exit_nicely, titleOf, bufContent, henv, overflow_text_eq,
          String.empty_append]
  · intro hlt
    have hcond : ¬ MAX_ON_EXIT_NICELY ≤ s.on_exit_nicely_list.length := by
      omega
    simp [on_exit_nicely, hcond]

/-- Witness for C4, exercising the overflow branch on a registry holding
exactly 20 entries and the append branch on an empty registry. -/
theorem on_exit_nicely_capacity_witness :
    (capState.g_jmpEnv = true ∧ capState.g_outMsgBuf = some none ∧
      cfgState.g_jmpEnv = true ∧ cfgState.g_outMsgBuf = some none) ∧
    ((capState.on_exit_nicely_list.length = MAX_ON_EXIT_NICELY →
        (on_exit_nicely 5 6 capState).2 = some 1 ∧
        (on_exit_nicely 5 6 capState).1.on_exit_nicely_list = [] ∧
        (on_exit_nicely 5 6 capState).1.g_outMsgBuf
          = some (some (bufContent none ++ (capState.progname ++ ": ")
              ++ "out of on_exit_nicely slots\n"))) ∧
      (capState.on_exit_nicely_list.length < MAX_ON_EXIT_NICELY →
        (on_exit_nicely 5 6 capState).1.on_exit_nicely_list
            = capState.on_exit_nicely_list ++ [⟨5, 6⟩] ∧
        (on_exit_nicely 5 6 capState).1.on_exit_nicely_list.length
            = capState.on_exit_nicely_list.length + 1 ∧
        (on_exit_nicely 5 6 capState).2 = none)) ∧
    ((cfgState.on_exit_nicely_list.length = MAX_ON_EXIT_NICELY →
        (on_exit_nicely 5 6 cfgState).2 = some 1 ∧
        (on_exit_nicely 5 6 cfgState).1.on_exit_nicely_list = [] ∧
        (on_exit_nicely 5 6 cfgState).1.g_outMsgBuf
          = some (some (bufContent none ++ (cfgState.progname ++ ": ")
              ++ "out of on_exit_nicely slots\n"))) ∧
      (cfgState.on_exit_nicely_list.length < MAX_ON_EXIT_NICELY →
        (on_exit_nicely 5 6 cfgState).1.on_exit_nicely_list
            = cfgState.on_exit_nicely_list ++ [⟨5, 6⟩] ∧
        (on_exit_nicely 5 6 cfgState).1.on_exit_nicely_list.length
            = cfgState.on_exit_nicely_list.length + 1 ∧
        (on_exit_nicely 5 6 cfgState).2 = none)) :=
  ⟨⟨rfl, rfl, rfl, rfl⟩,
    on_exit_nicely_capacity 5 6 capState none rfl rfl,
    on_exit_nicely_capacity 5 6 cfgState none rfl rfl⟩

/-- Claim C6 counterexample: with a module name the title fragment prepended
by `vwrite_msg` is `"tool: [archiver] "` — a space follows the bracket, not
the `": "` the claim states — so the transcript differs from the claimed
`"tool: [archiver]: x"`. -/
theorem vwrite_msg_module_title_claim_false :
    (vwrite_msg (some "archiver") "x" []
        (⟨"tool", some none, false, []⟩ : UtilsState)).1.g_outMsgBuf
      = some (some "tool: [archiver] x") ∧
    "tool: [archiver] x" ≠ "tool: [archiver]: x" := by decide

/-- Claim C6 as amended: with a module name the title fragment is exactly
`"<progname>: [<module>] "` (trailing space, no second colon); with no
module name it is exactly `"<progname>: "`; the no-module scenario
`emit(nil, "unrecognized option: %s", "--bogus")` with program name
`"tool"` yields the transcript `"tool: unrecognized option: --bogus"`. -/
theorem vwrite_msg_title_format (prog m fmtT : String) (ap : List FmtArg) :
    titleOf prog (some m) = prog ++ ": [" ++ m ++ "] " ∧
    titleOf prog none = prog ++ ": " ∧
    (vwrite_msg (some m) fmtT ap
        (⟨prog, some none, false, []⟩ : UtilsState)).1.g_outMsgBuf
      = some (some (prog ++ ": [" ++ m ++ "] " ++ formatStr fmtT ap)) ∧
    (vwrite_msg none "unrecognized option: %s" [FmtArg.s "--bogus"]
        (⟨"tool", some none, false, []⟩ : UtilsState)).1.g_outMsgBuf
      = some (some "tool: unrecognized option: --bogus") :=
  ⟨rfl, rfl, rfl, by decide⟩

/-- Transcript growth under a run of `vwrite_msg` calls: once the buffer is
non-null it accumulates, in order, each call's title and formatted
message. -/
theorem emitAll_transcript (calls : List EmitCall) (s : UtilsState)
    (content : String) (h : s.g_outMsgBuf = some (some content)) :
    (emitAll calls s).g_outMsgBuf
      = some (some (content ++ msgConcat s.progname calls)) := by
  induction calls generalizing s content with
  | nil => simpa [emitAll, msgConcat, String.append_empty] using h
  | cons c rest ih =>
    have hstep : emitAll (c :: rest) s
        = emitAll rest (vwrite_msg c.modulename c.fmt c.args s).1 := rfl
    have hbuf : (vwrite_msg c.modulename c.fmt c.args s).1.g_outMsgBuf
        = some (some (content ++ titleOf s.progname c.modulename
            ++ formatStr c.fmt c.args)) := by
      simp [vwrite_msg, h]
    have hprog : (vwrite_msg c.modulename c.fmt c.args s).1.progname
        = s.progname := (vwrite_msg_fields _ _ _ _).1
    rw [hstep, ih _ _ hbuf, hprog, msgConcat]
    simp [String.append_assoc]

/-- Claim C9: with a capture slot configured, each `vwrite_msg` call appends
its title and formatted message to the end of the buffer without disturbing
the accumulated content, requesting `titleLen + messageLen + 1` bytes on
first use and `bufLen + titleLen + messageLen + 1` bytes otherwise; hence
over any run of calls the buffer holds the concatenation of every diagnostic
emitted so far, in emission order. -/
theorem vwrite_msg_append_transcript (m : Option String) (fmt : String)
    (ap : List FmtArg) (s : UtilsState) (b : Option String)
    (hbuf : s.g_outMsgBuf = some b) (calls : List EmitCall)
    (content : String) :
    ((vwrite_msg m fmt ap s).1.g_outMsgBuf
        = some (some (bufContent b ++ titleOf s.progname m
            ++ formatStr fmt ap)) ∧
      (vwrite_msg m fmt ap s).2
        = some ((bufContent b).utf8ByteSize
            + (titleOf s.progname m).utf8ByteSize
            + (formatStr fmt ap).utf8ByteSize + 1)) ∧
    (s.g_outMsgBuf = some (some content) →
      (emitAll calls s).g_outMsgBuf
        = some (some (content ++ msgConcat s.progname calls))) := by
  refine ⟨?_, fun hc => emitAll_transcript calls s content hc⟩
  have hz : ("" : String).utf8ByteSize = 0 := rfl
  cases b with
  | none =>
    constructor <;>
      simp [vwrite_msg, hbuf, bufContent, String.empty_append, hz]
  | some old =>
    constructor <;> simp [vwrite_msg, hbuf, bufContent]

/-- Witness for C9 at a concrete buffer, call and run. -/
theorem vwrite_msg_append_transcript_witness :
    bufState.g_outMsgBuf = some (some "A") ∧
    (((vwrite_msg (some "mod") "x%s" [FmtArg.s "B"] bufState).1.g_outMsgBuf
        = some (some (bufContent (some "A")
            ++ titleOf bufState.progname (some "mod")
            ++ formatStr "x%s" [FmtArg.s "B"])) ∧
      (vwrite_msg (some "mod") "x%s" [FmtArg.s "B"] bufState).2
        = some ((bufContent (some "A")).utf8ByteSize
            + (titleOf bufState.progname (some "mod")).utf8ByteSize
            + (formatStr "x%s" [FmtArg.s "B"]).utf8ByteSize + 1)) ∧
     (bufState.g_outMsgBuf = some (some "A") →
       (emitAll [⟨none, "y", []⟩] bufState).g_outMsgBuf
         = some (some ("A" ++ msgConcat bufState.progname [⟨none, "y", []⟩])))) :=
  ⟨rfl, vwrite_msg_append_transcript (some "mod") "x%s" [FmtArg.s "B"]
    bufState (some "A") rfl [⟨none, "y", []⟩] "A"⟩

/-- With inert finalizers the reentrancy-aware loop fires exactly the first
`n` array entries in reverse position order, never jumps, and leaves the
array, the index and the jump environment unchanged — the non-reentrant
behavior the atomic `exit_nicely` captures. -/
theorem fireFrom_inert (code : Int) (n : Nat) :
    ∀ (gas : Nat) (st : FiringState), n ≤ gas →
      n ≤ st.on_exit_nicely_list.length →
      (fireFrom behZ gas code n st).2.1
        = (st.on_exit_nicely_list.take n).reverse.map
            (fun e => ⟨e.function, code, e.arg⟩) ∧
      (fireFrom behZ gas code n st).2.2 = none ∧
      (fireFrom behZ gas code n st).1.on_exit_nicely_list
        = st.on_exit_nicely_list ∧
      (fireFrom behZ gas code n st).1.on_exit_nicely_index
        = st.on_exit_nicely_index ∧
      (fireFrom behZ gas code n st).1.g_jmpEnv = st.g_jmpEnv := by
  induction n with
  | zero =>
    intro gas st hg hn
    cases gas <;> simp [fireFrom]
  | succ n ih =>
    intro gas st hg hn
    cases gas with
    | zero => omega
    | succ g =>
      have hn' : n < st.on_exit_nicely_list.length := by omega
      obtain ⟨e, hget⟩ : ∃ e, st.on_exit_nicely_list[n]? = some e :=
        ⟨_, List.getElem?_eq_getElem hn'⟩
      by_cases hm : e.function ∈ st.closed
      · obtain ⟨ih1, ih2, ih3, ih4, ih5⟩ := ih g st (by omega) (by omega)
        simp [fireFrom, hget, hm, ih1, ih2, ih3, ih4, ih5,
          List.take_succ, List.map_append]
      · obtain ⟨ih1, ih2, ih3, ih4, ih5⟩ :=
          ih g { st with closed := e.function :: st.closed } (by omega)
            (by simpa using hn'.le)
        simp [fireFrom, hget, hm, behZ, ih1, ih2, ih3, ih4, ih5,
          List.take_succ, List.map_append]

/-- On inert finalizers — no finalizer-initiated reentry — the
reentrancy-aware `exit_nicely_reentrant` agrees with the atomic
`exit_nicely`: the same firing trace and the same jump decision, with the
index left at zero. -/
theorem exit_nicely_reentrant_agrees (code : Int) (gas : Nat) (env : Bool)
    (arr : List CleanupEntry) (closed : List Nat) (prog : String)
    (buf : Option (Option String)) (hg : arr.length ≤ gas) :
    (exit_nicely_reentrant behZ gas code ⟨arr, arr.length, env, closed⟩).2.1
      = (exit_nicely code ⟨prog, buf, env, arr⟩).2.1 ∧
    (exit_nicely_reentrant behZ gas code ⟨arr, arr.length, env, closed⟩).2.2
      = (exit_nicely code ⟨prog, buf, env, arr⟩).2.2 ∧
    (exit_nicely_reentrant behZ gas code
        ⟨arr, arr.length, env, closed⟩).1.on_exit_nicely_index = 0 := by
  obtain ⟨h1, h2, h3, h4, h5⟩ := fireFrom_inert code arr.length gas
    ⟨arr, arr.length, env, closed⟩ hg (le_refl _)
  simp only [List.take_length] at h1
  refine ⟨?_, ?_, ?_⟩
  all_goals
    by_cases hc0 : code = 0
    · simp only [hc0] at h1 h2 h5
      cases env <;> simp [exit_nicely_reentrant, exit_nicely, hc0, h1, h2, h5]
    · cases env <;> simp [exit_nicely_reentrant, exit_nicely, h1, h2, h5, hc0]

/-- Claim C10 counterexample: with finalizer A = ⟨1, 10⟩ — whose close
raises a fatal `exit_nicely 1` — registered before the inert finalizer
B = ⟨2, 20⟩, a single fatal `exit_nicely 5` fires B, then A; A's raise
re-enters the primitive while `on_exit_nicely_index` is still 2, because
the reset at line 239 runs only after the firing loop, so the nested
invocation re-fires B (and re-invokes the now-closed A) before jumping
away.  Finalizer 2 fires twice in the run — not at most once — and the
second entry into the primitive fired finalizers rather than none. -/
theorem exit_nicely_refires_from_finalizer :
    (exit_nicely_reentrant behAB 9 5 stAB).2.1
      = [⟨2, 5, 20⟩, ⟨1, 5, 10⟩, ⟨2, 1, 20⟩, ⟨1, 1, 10⟩] ∧
    (exit_nicely_reentrant behAB 9 5 stAB).2.1.countP
      (fun c => c.function == 2) = 2 ∧
    (exit_nicely_reentrant behAB 9 5 stAB).2.2 = some 1 := by
  decide

/-- Claim C10 as amended: the index reset happens only after the firing
loop completes, so an `exit_nicely` raised from inside a finalizer still
sees the original count and re-fires registered entries — finalizers may
fire more than once per run, and must be idempotent-safe as spec section
4.2 demands.  What does hold is that a completed invocation leaves the
count at zero, so a second invocation made after a first one has run to
completion — such as a zero-code call that returned to its caller —
invokes no finalizers at all. -/
theorem exit_nicely_reset_after_loop (beh : Nat → Option Int)
    (gas gas2 : Nat) (code code2 : Int) (st : FiringState)
    (hdone : (exit_nicely_reentrant beh gas code st).2.2 = none) :
    (exit_nicely_reentrant beh gas code st).1.on_exit_nicely_index = 0 ∧
    (exit_nicely_reentrant beh gas2 code2
        (exit_nicely_reentrant beh gas code st).1).2.1 = [] ∧
    (exit_nicely_reentrant behAB 9 5 stAB).2.1.countP
      (fun c => c.function == 2) = 2 := by
  have h1 : (exit_nicely_reentrant beh gas code st).1.on_exit_nicely_index
      = 0 := by
    simp only [exit_nicely_reentrant] at hdone ⊢
    cases hr : (fireFrom beh gas code st.on_exit_nicely_index st).2.2 with
    | some v => simp only [hr] at hdone; exact Option.noConfusion hdone
    | none => simp only [hr]; split <;> rfl
  refine ⟨h1, ?_, by decide⟩
  set s2 := (exit_nicely_reentrant beh gas code st).1 with hs2
  simp only [exit_nicely_reentrant, h1]
  cases gas2 with
  | zero => simp only [fireFrom]; split <;> rfl
  | succ g => simp only [fireFrom]; split <;> rfl

/-- Witness for C10 as amended: a zero-code invocation that returns to its
caller, followed by a second invocation that fires nothing. -/
theorem exit_nicely_reset_after_loop_witness :
    (exit_nicely_reentrant behZ 3 0 stAB).2.2 = none ∧
    ((exit_nicely_reentrant behZ 3 0 stAB).1.on_exit_nicely_index = 0 ∧
     (exit_nicely_reentrant behZ 4 7
        (exit_nicely_reentrant behZ 3 0 stAB).1).2.1 = [] ∧
     (exit_nicely_reentrant behAB 9 5 stAB).2.1.countP
        (fun c => c.function == 2) = 2) :=
  ⟨by decide, exit_nicely_reset_after_loop behZ 3 4 0 7 stAB (by decide)⟩

/-- `write_msg` leaves the jump environment unchanged. -/
theorem write_msg_jmpEnv (m : Option String) (fmt : String) (ap : List FmtArg)
    (s : UtilsState) : (write_msg m fmt ap s).g_jmpEnv = s.g_jmpEnv :=
  (vwrite_msg_fields m fmt ap s).2.1

/-- `write_msg` leaves the cleanup registry unchanged. -/
theorem write_msg_list (m : Option String) (fmt : String) (ap : List FmtArg)
    (s : UtilsState) :
    (write_msg m fmt ap s).on_exit_nicely_list = s.on_exit_nicely_list :=
  (vwrite_msg_fields m fmt ap s).2.2

/-- Claim C1 counterexample: a run whose driver returns normally with no
errors yields status 1 (not the claimed 0), a usage-error run yields status
0 (not the claimed 1), and a run completed with 3 non-fatal errors yields
the same status as a clean success — no distinct "completed with errors"
status exists. -/
theorem pg_restore_exit_code_claim_false :
    (pg_restore (DriverScript.run (EngineBehavior.returns 0)) (some none)
        initState).1 = 1 ∧
    (pg_restore DriverScript.usageError (some none) initState).1 = 0 ∧
    (pg_restore (DriverScript.run (EngineBehavior.returns 3)) (some none)
        initState).1
      = (pg_restore (DriverScript.run (EngineBehavior.returns 0)) (some none)
          initState).1 := by
  refine ⟨rfl, rfl, rfl⟩

/-- Claim C1 as amended: `pg_restore` returns 1 whenever the driver returns
normally — with or without non-fatal errors, the `exit_code` computed from
`n_errors` being discarded — and 0 whenever the run was a usage error or was
aborted through the Termination Primitive with a nonzero code. -/
theorem pg_restore_status_mapping (n : Nat) (c : Int) (hc : c ≠ 0)
    (buf : Option (Option String)) (s : UtilsState)
    (hcap : s.on_exit_nicely_list.length < MAX_ON_EXIT_NICELY) :
    (pg_restore (DriverScript.run (EngineBehavior.returns n)) buf s).1 = 1 ∧
    (pg_restore DriverScript.usageError buf s).1 = 0 ∧
    (pg_restore (DriverScript.run (EngineBehavior.aborts c)) buf s).1 = 0 := by
  have hcond : ¬ MAX_ON_EXIT_NICELY ≤ s.on_exit_nicely_list.length := by omega
  refine ⟨?_, ?_, ?_⟩
  · simp [pg_restore, pg_restore_internal, on_exit_nicely, hcond]
  · simp [pg_restore, pg_restore_internal, exit_nicely, write_msg_jmpEnv]
  · simp [pg_restore, pg_restore_internal, on_exit_nicely, hcond,
      exit_nicely, hc]

/-- Witness for C1 as amended, at concrete runs. -/
theorem pg_restore_status_mapping_witness :
    ((1 : Int) ≠ 0
      ∧ initState.on_exit_nicely_list.length < MAX_ON_EXIT_NICELY) ∧
    ((pg_restore (DriverScript.run (EngineBehavior.returns 3)) (some none)
        initState).1 = 1 ∧
     (pg_restore DriverScript.usageError (some none) initState).1 = 0 ∧
     (pg_restore (DriverScript.run (EngineBehavior.aborts 1)) (some none)
        initState).1 = 0) :=
  ⟨⟨by decide, by decide⟩,
    pg_restore_status_mapping 3 1 (by decide) (some none) initState (by decide)⟩

/-- Claim C3 counterexample: after a `pg_restore` call whose driver returned
normally, the jump-environment slot is indeed NULL, but the Cleanup Registry
is not empty — the archive-closing callback registered during the run is
still there, so a subsequent call does not start with a clean registry. -/
theorem pg_restore_registry_after_normal_return :
    (pg_restore (DriverScript.run (EngineBehavior.returns 0)) (some none)
        initState).2.g_jmpEnv = false ∧
    (pg_restore (DriverScript.run (EngineBehavior.returns 0)) (some none)
        initState).2.on_exit_nicely_list
      = [⟨archive_close_connection, AHhandle⟩] ∧
    ([⟨archive_close_connection, AHhandle⟩] : List CleanupEntry) ≠ [] := by
  refine ⟨rfl, rfl, by decide⟩

/-- Claim C3 as amended: after every `pg_restore` call the Resumption Point
slot `g_jmpEnv` is NULL; the Cleanup Registry is empty after runs that
aborted through `exit_nicely` (usage error, or engine abort with a nonzero
code), but after a normal driver return the entry registered during the run
(the archive-closing callback) remains in the registry. -/
theorem pg_restore_post_state (script : DriverScript)
    (buf : Option (Option String)) (s : UtilsState) (c : Int) (n : Nat)
    (_hc : c ≠ 0) (hcap : s.on_exit_nicely_list.length < MAX_ON_EXIT_NICELY) :
    (pg_restore script buf s).2.g_jmpEnv = false ∧
    (pg_restore DriverScript.usageError buf s).2.on_exit_nicely_list = [] ∧
    (pg_restore (DriverScript.run (EngineBehavior.aborts c)) buf
        s).2.on_exit_nicely_list = [] ∧
    (pg_restore (DriverScript.run (EngineBehavior.returns n)) buf
        s).2.on_exit_nicely_list
      = s.on_exit_nicely_list ++ [⟨archive_close_connection, AHhandle⟩] := by
  have hcond : ¬ MAX_ON_EXIT_NICELY ≤ s.on_exit_nicely_list.length := by omega
  refine ⟨?_, ?_, ?_, ?_⟩
  · simp [pg_restore]
  · simp [pg_restore, pg_restore_internal, exit_nicely]
  · simp [pg_restore, pg_restore_internal, on_exit_nicely, hcond, exit_nicely]
  · by_cases hn : n ≠ 0 <;>
      simp [pg_restore, pg_restore_internal, on_exit_nicely, hcond, hn,
        write_msg_list]

/-- Witness for C3 as amended, at concrete runs. -/
theorem pg_restore_post_state_witness :
    ((1 : Int) ≠ 0
      ∧ initState.on_exit_nicely_list.length < MAX_ON_EXIT_NICELY) ∧
    ((pg_restore DriverScript.usageError (some none) initState).2.g_jmpEnv
        = false ∧
     (pg_restore DriverScript.usageError (some none)
        initState).2.on_exit_nicely_list = [] ∧
     (pg_restore (DriverScript.run (EngineBehavior.aborts 1)) (some none)
        initState).2.on_exit_nicely_list = [] ∧
     (pg_restore (DriverScript.run (EngineBehavior.returns 2)) (some none)
        initState).2.on_exit_nicely_list
       = initState.on_exit_nicely_list
          ++ [⟨archive_close_connection, AHhandle⟩]) :=
  ⟨⟨by decide, by decide⟩,
    pg_restore_post_state DriverScript.usageError (some none) initState 1 2
      (by decide) (by decide)⟩

end PgBackupUtils
